import Mathlib

/-!
Shallow embedding of the corgos-telegram-bot content-acquisition and
rotating-delivery code, together with proofs about the specified behaviour.

The repository contains several revisions of the same module; they are
embedded in separate namespaces:
  * `Legacy`  — `src/reddit.py` (plain-list queue, `getImage`/`removeImage`);
  * `Scripts` — `src/scripts/modules/reddit.py` and
    `src/scripts/modules/settings.py` (url-serving revision, `getUrl`,
    `removeUrl`, class-keyed settings singleton);
  * `Corgos`  — `src/corgos_telegram_bot/modules/reddit.py` and
    `src/corgos_telegram_bot/modules/settings.py` (cache-file revision,
    `getPhoto`, path-keyed settings singleton);
  * `SwapMachine` — an interleaving model of the lock-protected queue swap
    of `Corgos.loadPostsAsync` running against concurrent `getPhoto` calls.

Machine-level conventions: Python exceptions are modelled with `Except`
(`PyErr` enumerates the exception classes that matter); the network is an
oracle `String → Except String Response`; `random.shuffle` and the
iteration order of a Python `set` are modelled by an oracle function that
is assumed (where needed) to permute its argument.
-/

/-- PyErr enumerates the Python exception classes the embedded code can
raise: `EmptyQueueException`, `KeyError`, `ValueError` (from
`list.remove`), `IndexError` (from `args[0]`), `TypeError` (from `len()`
applied to an object without `__len__`), and `FileNotFoundError`. -/
inductive PyErr where
  | emptyQueue
  | keyError
  | valueError
  | indexError
  | typeError
  | fileNotFound
  deriving DecidableEq, Repr

/-- Membership test `needle in hay` on Python strings: `needle` occurs as a
contiguous substring of `hay`. -/
def pyInB (needle hay : String) : Bool :=
  decide (needle.toList <:+: hay.toList)

/-- Python `str.split` restricted to a one-character separator (the code
only splits on "/" and "?"): splitting an empty list yields one empty
field, and every separator occurrence opens a new field. -/
def splitOnChar (c : Char) : List Char → List (List Char)
  | [] => [[]]
  | x :: xs =>
    let r := splitOnChar c xs
    if x = c then [] :: r
    else
      match r with
      | [] => [[x]]
      | y :: ys => (x :: y) :: ys

/-- Python `url.split(sep)` for a one-character separator. -/
def pySplit (s : String) (sep : Char) : List String :=
  (splitOnChar sep s.toList).map (fun l => ⟨l⟩)

/-- An HTTP response: only the headers are inspected by the code
(`r.headers["content-type"]`). -/
structure Response where
  headers : List (String × String)
  deriving DecidableEq, Repr

/-- Response header lookup; `none` models the `KeyError` raised by
`r.headers[k]` when the header is missing (always raised inside a
`try`/`except` in the code). -/
def headerLookup (r : Response) (k : String) : Option String :=
  (r.headers.find? (fun p => p.1 = k)).map (fun p => p.2)

/-- Network oracle: an HTTP GET/HEAD of a url either raises (connection
error, modelled as `Except.error`) or yields a response. -/
abbrev Net := String → Except String Response

/-- Gallery entry sub-object `media[1]["s"]`, holding the representative
url under key "u" when present. -/
structure SObj where
  u : Option String
  deriving DecidableEq, Repr

/-- One value of `submission.media_metadata`: declared MIME format under
key "m" and the source object under key "s", each possibly absent. -/
structure MediaMeta where
  m : Option String
  s : Option SObj
  deriving DecidableEq, Repr

/-- The praw `Submission` attributes the scrapers read.  `is_gallery`
models `hasattr(submission, "is_gallery")`; `loadResult` is the outcome of
the `await submission.load()` network call made by the Scripts revision
(raising is modelled as `Except.error`). -/
structure Submission where
  url : String
  stickied : Bool
  is_self : Bool
  score : Int
  is_gallery : Bool
  media_metadata : List (String × MediaMeta)
  loadResult : Except String Unit
  deriving Repr

namespace Legacy

/-- Accepted content types of `src/reddit.py`: `("image/png", "image/jpeg")`. -/
def image_formats : List String := ["image/png", "image/jpeg"]

/-- Reddit.getImage of `src/reddit.py`: raises `EmptyQueueException` when
the list is empty, otherwise reads the head (`self._queue[0]`), rotates
the list (`self._queue.append(self._queue.pop(0))`) and returns the head
together with the rotated queue. -/
def getImage : List String → Except PyErr (String × List String)
  | [] => .error .emptyQueue
  | x :: rest => .ok (x, rest ++ [x])

/-- Python `list.remove(url)`: deletes the first element equal to `url`,
raising `ValueError` when no element matches. -/
def pyListRemove : List String → String → Except PyErr (List String)
  | [], _ => .error .valueError
  | x :: xs, url =>
    if x = url then .ok xs
    else (pyListRemove xs url).map (fun r => x :: r)

/-- Reddit.removeImage of `src/reddit.py`: `self._queue.remove(url)`. -/
def removeImage (q : List String) (url : String) : Except PyErr (List String) :=
  pyListRemove q url

end Legacy

namespace Scripts

/-- Accepted content types of `src/scripts/modules/reddit.py`. -/
def image_formats : List String := ["image/png", "image/jpeg"]

/-- Reddit._scrapeImage: requests the url and returns it when the
`content-type` header is in the allow-list; any exception (failed request
or missing header) is caught and `None` is returned. -/
def scrapeImage (net : Net) (url : String) : Option String :=
  match net url with
  | .error _ => none
  | .ok r =>
    match headerLookup r "content-type" with
    | none => none
    | some fmt => if fmt ∈ image_formats then some url else none

/-- Reddit._scrapeGallery of the Scripts revision, iterating
`media_metadata.items()` in order.  The `len(media) < 2` guard of the
source is not modelled: `dict.items()` always yields pairs, so that branch
is unreachable.  Note the branch for a declared format in the allow-list
executes `continue` and contributes nothing. -/
def scrapeGallery (net : Net) : List (String × MediaMeta) → List String
  | [] => []
  | (_, meta) :: rest =>
    let tail := scrapeGallery net rest
    match meta.m with
    | none => tail
    | some image_format =>
      if image_format ∈ image_formats then tail
      else
        match meta.s with
        | none => tail
        | some sobj =>
          match sobj.u with
          | none => tail
          | some image_url =>
            match scrapeImage net image_url with
            | none => tail
            | some _ => image_url :: tail

/-- Reddit._scrapePost of the Scripts revision.  Returns the boolean
result of the coroutine paired with the values added to
`self._temp_queue`; the non-gallery branch appends the result of
`_scrapeImage` unconditionally, so a failed validation adds `None`
(hence the element type `Option String`).  An error of
`await submission.load()` is not caught and propagates. -/
def scrapePost (net : Net) (submission : Submission) (min_score : Int) :
    Except String (Bool × List (Option String)) :=
  if submission.stickied then .ok (false, [])
  else if submission.is_self then .ok (false, [])
  else if submission.score < min_score then .ok (false, [])
  else if [".gif", ".gifv", "v.redd.it"].any (fun x => pyInB x submission.url) then
    .ok (false, [])
  else
    match submission.loadResult with
    | .error e => .error e
    | .ok _ =>
      let scraped_urls : List (Option String) :=
        if submission.is_gallery then
          (scrapeGallery net submission.media_metadata).map some
        else [scrapeImage net submission.url]
      .ok (true, scraped_urls)

/-- asyncio.gather without `return_exceptions`: fail-fast — the first
raising task's exception propagates to the awaiter; otherwise the list of
results is returned. -/
def gather {ε α : Type} : List (Except ε α) → Except ε (List α)
  | [] => .ok []
  | .error e :: _ => .error e
  | .ok a :: rest => (gather rest).map (fun l => a :: l)

/-- The contributions of one acquisition pass: gather all `_scrapePost`
tasks and concatenate the values each adds to the staging set. -/
def gatherTasks (net : Net) (subs : List Submission) (min_score : Int) :
    Except String (List (Option String)) :=
  (gather (subs.map (fun s => scrapePost net s min_score))).map
    (fun rs => (rs.map (fun r => r.2)).flatten)

/-- Reddit interface state: the serving queue contents and the
`_is_loading` flag. -/
structure RState where
  queue : List (Option String)
  isLoading : Bool
  deriving DecidableEq, Repr

/-- Reddit.loadPostsAsync of the Scripts revision.  `listing` is the
outcome of the subreddit listing (`subreddits.top(...)`), which can raise
at pipeline level; `oracle` models `list(set)` iteration order followed by
`random.shuffle` (an arbitrary reordering of the distinct staged values,
`List.dedup` giving set semantics).  The flag is set at entry; a listing
or gather exception propagates with the flag never reset and the serving
queue untouched; on success the queue is wholesale-replaced under the
queue lock and the flag cleared before the lock is released. -/
def loadPostsAsync (net : Net) (listing : Except String (List Submission))
    (min_score : Int) (oracle : List (Option String) → List (Option String))
    (st : RState) : RState × Except String Nat :=
  let during : RState := ⟨st.queue, true⟩
  match listing with
  | .error e => (during, .error e)
  | .ok subs =>
    match gatherTasks net subs min_score with
    | .error e => (during, .error e)
    | .ok contrib =>
      let loaded := oracle contrib.dedup
      (⟨loaded, false⟩, .ok loaded.length)

end Scripts

namespace Corgos

/-- Accepted content types of `src/corgos_telegram_bot/modules/reddit.py`:
`("image/png", "image/jpeg", "image/jpg")`. -/
def image_formats : List String := ["image/png", "image/jpeg", "image/jpg"]

/-- Reddit.getPhoto: under the queue lock, raise `EmptyQueueException`
when the queue is empty, otherwise `get` the head and `put` it back at the
tail, returning the head and the rotated queue. -/
def getPhoto : List String → Except PyErr (String × List String)
  | [] => .error .emptyQueue
  | x :: rest => .ok (x, rest ++ [x])

/-- Reddit._extractFilenameFromUrl: the filename is the last "/"-field of
the url truncated at the first "?", and the filepath is
`path.join(folder, f-string of x, "_", filename)`. -/
def extractFilenameFromUrl (folder : String) (x : Nat) (url : String) : String :=
  let filename := (pySplit ((pySplit url '/').getLastD "") '?').headD ""
  folder ++ "/" ++ toString x ++ "_" ++ filename

/-- Reddit._scrapeGallery of the Corgos revision: identical branch
structure to the Scripts revision except that no network verification is
performed — the representative url is appended directly.  As in the other
revisions, the branch for a declared format in the allow-list executes
`continue` and contributes nothing (while its debug log line says
"adding to queue"). -/
def scrapeGallery : List (String × MediaMeta) → List String
  | [] => []
  | (_, meta) :: rest =>
    let tail := scrapeGallery rest
    match meta.m with
    | none => tail
    | some image_format =>
      if image_format ∈ image_formats then tail
      else
        match meta.s with
        | none => tail
        | some sobj =>
          match sobj.u with
          | none => tail
          | some image_url => image_url :: tail

/-- Reddit._scrapePost of the Corgos revision.  Only "v.redd.it" is
filtered from the url; the per-url loop derives a cache filepath with the
enumeration index, downloads the image (`_downloadImage` catches every
exception and checks the content type only to decide whether bytes are
written), and adds the filepath to `self._temp_queue` unconditionally, so
the contributed values are cache filepaths whatever the download did. -/
def scrapePost (folder : String) (submission : Submission) (min_score : Int) :
    Bool × List String :=
  if submission.stickied then (false, [])
  else if submission.is_self then (false, [])
  else if submission.score < min_score then (false, [])
  else if pyInB "v.redd.it" submission.url then (false, [])
  else
    let urls :=
      if submission.is_gallery then scrapeGallery submission.media_metadata
      else [submission.url]
    (true, urls.enum.map (fun p => extractFilenameFromUrl folder p.1 p.2))

/-- Reddit interface state of the Corgos revision: serving queue of cache
filepaths and the `_is_loading` flag. -/
structure CState where
  queue : List String
  isLoading : Bool
  deriving DecidableEq, Repr

/-- The interface state visible to concurrent readers of `is_loading`
from the moment `loadPostsAsync` sets the flag on its first line until
its queue swap completes: the flag is up and the serving queue still
holds its previous contents. -/
def loadingDuring (st : CState) : CState := ⟨st.queue, true⟩

/-- Reddit.loadPostsAsync of the Corgos revision.  `self._is_loading` is
set to `True` on the first line; `listing` is the outcome of reading the
settings and listing the subreddit (a pipeline-level failure propagates
with the flag never reset, since there is no `try`/`finally`); the
gathered `_scrapePost` tasks contribute cache filepaths to the staging set
(`List.dedup` for set semantics) and `oracle` models `list(set)` order
plus `random.shuffle`; the swap drains and refills `self._queue` under the
queue lock, after which the flag is cleared and `len(loaded)` returned. -/
def loadPostsAsync (folder : String) (listing : Except String (List Submission))
    (min_score : Int) (oracle : List String → List String) (st : CState) :
    CState × Except String Nat :=
  match listing with
  | .error e => (loadingDuring st, .error e)
  | .ok subs =>
    let contrib := (subs.map (fun sb => (scrapePost folder sb min_score).2)).flatten
    let loaded := oracle contrib.dedup
    (⟨loaded, false⟩, .ok loaded.length)

end Corgos

namespace SwapMachine

/-- Progress of one queue-swap (`Corgos.loadPostsAsync` lines 325-331)
through its critical section: not yet started, draining the old queue,
inserting the shuffled staging items (with the ones still to insert), or
finished with the lock released. -/
inductive Phase where
  | idle
  | draining
  | putting (rest : List String)
  | done
  deriving DecidableEq, Repr

/-- The swap holds `_queue_lock` exactly while draining or putting. -/
def lockHeld : Phase → Bool
  | .idle => false
  | .draining => true
  | .putting _ => true
  | .done => false

/-- A configuration: the serving-queue contents and the swap's phase. -/
structure Cfg where
  queue : List String
  phase : Phase
  deriving DecidableEq, Repr

/-- Observable events: a `getPhoto` call that returned `url` after
observing queue contents `observed`; a `getPhoto` call that raised
`EmptyQueueException` (observing an empty queue); or an internal swap
micro-step. -/
inductive Ev where
  | took (url : String) (observed : List String)
  | emptyErr
  | tau
  deriving DecidableEq, Repr

/-- Interleaving semantics, parametrised by the shuffled staging list `s`.
A reader (`getPhoto`) acquires the queue lock for its whole get+put
rotation, so it can only run while the swap does not hold the lock; the
swap's micro-steps are acquiring the lock, draining one item
(`self._queue.get()` in the while loop), switching to the refill loop,
putting one staged item, and releasing the lock. -/
inductive Step (s : List String) : Cfg → Ev → Cfg → Prop where
  | take (x : String) (rest : List String) (ph : Phase)
      (h : lockHeld ph = false) :
      Step s ⟨x :: rest, ph⟩ (.took x (x :: rest)) ⟨rest ++ [x], ph⟩
  | takeEmpty (ph : Phase) (h : lockHeld ph = false) :
      Step s ⟨[], ph⟩ .emptyErr ⟨[], ph⟩
  | acquire (q : List String) : Step s ⟨q, .idle⟩ .tau ⟨q, .draining⟩
  | drain (x : String) (rest : List String) :
      Step s ⟨x :: rest, .draining⟩ .tau ⟨rest, .draining⟩
  | drained : Step s ⟨[], .draining⟩ .tau ⟨[], .putting s⟩
  | put (q : List String) (x : String) (rest : List String) :
      Step s ⟨q, .putting (x :: rest)⟩ .tau ⟨q ++ [x], .putting rest⟩
  | release (q : List String) : Step s ⟨q, .putting []⟩ .tau ⟨q, .done⟩

/-- A finite execution: a sequence of steps with its event trace. -/
inductive Run (s : List String) : Cfg → List Ev → Cfg → Prop where
  | nil (c : Cfg) : Run s c [] c
  | cons {c c' c'' : Cfg} {e : Ev} {tr : List Ev}
      (st : Step s c e c') (r : Run s c' tr c'') : Run s c (e :: tr) c''

/-- Inductive invariant relating the queue to the initial contents `q0`
and the staging list `s`: before the swap starts the queue is a rotation
of `q0`; during the refill the queue prefixes `s`; after the swap it is a
rotation of `s`. -/
def Inv (q0 s : List String) : Cfg → Prop
  | ⟨q, .idle⟩ => q0.IsRotated q
  | ⟨_, .draining⟩ => True
  | ⟨q, .putting rest⟩ => q ++ rest = s
  | ⟨q, .done⟩ => s.IsRotated q

end SwapMachine

/-- Settings values: the key/value file maps string keys to ints, strings
or lists of ints. -/
inductive SVal where
  | int (n : Int)
  | str (s : String)
  | list (l : List Int)
  deriving DecidableEq, Repr

/-- In-memory settings mapping (`self._settings`): an insertion-ordered
dict with unique keys, embedded as an association list. -/
abbrev Dict := List (String × SVal)

/-- Python `d[k]` read: the value at the first matching key. -/
def dictGet : Dict → String → Option SVal
  | [], _ => none
  | (k0, v0) :: rest, k => if k0 = k then some v0 else dictGet rest k

/-- Python `d[k] = v`: replaces the value at an existing key in place,
appending when the key is absent. -/
def dictSet : Dict → String → SVal → Dict
  | [], k, v => [(k, v)]
  | (k0, v0) :: rest, k, v =>
    if k0 = k then (k0, v) :: rest else (k0, v0) :: dictSet rest k v

/-- Stable storage: each path either holds a serialized settings mapping
or no file.  `ujson.dumps`/`ujson.loads` round-trip the mapping, so the
file is modelled by the mapping itself. -/
abbrev FS := String → Option Dict

namespace Corgos

/-- One Settings object of
`src/corgos_telegram_bot/modules/settings.py`: its backing path and its
in-memory `_settings` dict (`__init__` stores the path and an empty
dict). -/
structure Settings where
  path : String
  settings : Dict
  deriving Repr

/-- Settings.load: reads and parses the backing file under the data lock,
replacing the in-memory dict; a missing file raises
`FileNotFoundError`. -/
def Settings.load (self : Settings) (fs : FS) : Except PyErr Settings :=
  match fs self.path with
  | none => .error .fileNotFound
  | some d => .ok { self with settings := d }

/-- Settings.get with no deserializer: raises `KeyError` on a missing
key, otherwise returns the in-memory value. -/
def Settings.get (self : Settings) (key : String) : Except PyErr SVal :=
  match dictGet self.settings key with
  | none => .error .keyError
  | some v => .ok v

/-- Settings.set with no serializer: raises `KeyError` on a missing key;
otherwise updates the in-memory dict and writes it through to the backing
file (`_saveNoLock`) before returning.  The updated store and file system
are the state when `set` returns. -/
def Settings.set (self : Settings) (fs : FS) (key : String) (value : SVal) :
    Except PyErr (Settings × FS) :=
  match dictGet self.settings key with
  | none => .error .keyError
  | some _ =>
    let d := dictSet self.settings key value
    .ok ({ self with settings := d },
      fun p => if p = self.path then some d else fs p)

/-- Process-wide singleton state of `SingletonMeta`: the
`(cls, settings_path)`-keyed instance registry (there is a single
`Settings` class, so only the path varies), the heap of live instances
addressed by identity, and the next fresh identity. -/
structure Meta where
  registry : List (String × Nat)
  store : Nat → Settings
  fresh : Nat

/-- SingletonMeta.__call__ of the Corgos revision.  When the
`settings_path` keyword is absent it reads `args[0]` — raising
`IndexError` when no positional argument was given — and shifts the
positional arguments.  It then returns the registered instance for the
path, creating and registering a fresh one (via `Settings.__init__`) when
none exists. -/
def SingletonMeta.call (args : List String) (kwargsPath : Option String)
    (m : Meta) : Except PyErr (Nat × Meta) :=
  let pathE : Except PyErr String :=
    match kwargsPath with
    | some p => .ok p
    | none =>
      match args with
      | [] => .error .indexError
      | a :: _ => .ok a
  match pathE with
  | .error e => .error e
  | .ok p =>
    match m.registry.find? (fun q => q.1 == p) with
    | some entry => .ok (entry.2, m)
    | none =>
      .ok (m.fresh,
        { registry := (p, m.fresh) :: m.registry,
          store := fun i => if i = m.fresh then { path := p, settings := [] } else m.store i,
          fresh := m.fresh + 1 })

/-- Well-formedness of the singleton state: every registered identity is
below the fresh counter, registered instances carry the path they are
registered under, and no identity is registered under two paths. -/
def MetaWF (m : Meta) : Prop :=
  (∀ e ∈ m.registry, e.2 < m.fresh ∧ (m.store e.2).path = e.1) ∧
  (∀ e1 ∈ m.registry, ∀ e2 ∈ m.registry, e1.2 = e2.2 → e1.1 = e2.1)

/-- Calling `set` on the live instance with identity `i` (mutating the
shared heap and writing through to the file system). -/
def setById (m : Meta) (fs : FS) (i : Nat) (key : String) (value : SVal) :
    Except PyErr (Meta × FS) :=
  match (m.store i).set fs key value with
  | .error e => .error e
  | .ok (obj, fs') =>
    .ok ({ m with store := fun j => if j = i then obj else m.store j }, fs')

/-- Calling `get` on the live instance with identity `i`. -/
def getById (m : Meta) (i : Nat) (key : String) : Except PyErr SVal :=
  (m.store i).get key

/-- An empty singleton state (no instance constructed yet). -/
def emptyMeta : Meta :=
  { registry := [], store := fun _ => { path := "", settings := [] }, fresh := 0 }

end Corgos

namespace Scripts

/-- One Settings object of `src/scripts/modules/settings.py` (same
`__init__` shape as the Corgos revision, keyword `path`). -/
structure Settings where
  path : String
  settings : Dict
  deriving Repr

/-- Singleton state of the Scripts `SingletonMeta`: the registry is keyed
by the class alone (`cls._instances[cls]`), and there is one `Settings`
class, so at most one instance ever exists. -/
structure Meta where
  instances : Option (Nat × Settings)
  fresh : Nat

/-- SingletonMeta.__call__ of the Scripts revision: returns the single
registered instance whatever arguments are passed, creating it from the
given path only when no instance exists yet. -/
def SingletonMeta.call (path : String) (m : Meta) : Nat × Meta :=
  match m.instances with
  | some (i, _) => (i, m)
  | none =>
    (m.fresh,
      { instances := some (m.fresh, { path := path, settings := [] }),
        fresh := m.fresh + 1 })

/-- Reddit.removeUrl of the Scripts revision.  Its first statement is
`temp_queue = Queue(len(self._queue))`, and `queue.Queue` defines no
`__len__`, so `len` raises `TypeError` before the queue is read: the call
never completes, whatever the queue contents and whether or not the url
is present. -/
def removeUrl (_q : List String) (_url : String) : Except PyErr (List String) :=
  .error .typeError

end Scripts

/-- A valid non-gallery submission used in concrete scenarios: score 10,
not stickied, not self-text, whose url resolves to a jpeg. -/
def exGood : Submission :=
  ⟨"https://i.redd.it/good.jpg", false, false, 10, false, [], .ok ()⟩

/-- A submission whose `submission.load()` call raises a connection
error. -/
def exBad : Submission :=
  ⟨"https://i.redd.it/bad.jpg", false, false, 10, false, [], .error "connection reset"⟩

/-- A network oracle serving `content-type: image/jpeg` for the good
submission's url and failing on everything else. -/
def exNet : Net := fun u =>
  if u = "https://i.redd.it/good.jpg" then .ok ⟨[("content-type", "image/jpeg")]⟩
  else .error "unreachable"

/-- A gallery metadata entry whose declared format is in the image
allow-list and which carries a representative url. -/
def exGalleryEntry : List (String × MediaMeta) :=
  [("1", ⟨some "image/png", some ⟨some "https://i.redd.it/1.png"⟩⟩)]

namespace Legacy

/-- Reddit._scrapeImage of `src/reddit.py`: issues `requests.head(url)`
and returns `[url]` when the `content-type` header is in the allow-list,
`[]` otherwise; any exception (failed request or missing header) is
caught and `[]` is returned. -/
def scrapeImage (net : Net) (url : String) : List String :=
  match net url with
  | .error _ => []
  | .ok r =>
    match headerLookup r "content-type" with
    | none => []
    | some fmt => if fmt ∈ image_formats then [url] else []

/-- Reddit._scrapeGallery of `src/reddit.py`, iterating
`media_metadata.items()` in order.  `media[1]["m"]` and `media[1]["s"]`
are plain subscripts, so a missing key raises `KeyError`, which nothing
in this revision catches; as in the other revisions, a declared format in
the allow-list executes `continue` and contributes nothing. -/
def scrapeGallery : List (String × MediaMeta) → Except String (List String)
  | [] => .ok []
  | (_, meta) :: rest =>
    match meta.m with
    | none => .error "KeyError"
    | some image_format =>
      if image_format ∈ image_formats then scrapeGallery rest
      else
        match meta.s with
        | none => .error "KeyError"
        | some sobj =>
          match sobj.u with
          | none => scrapeGallery rest
          | some image_url =>
            (scrapeGallery rest).map (fun l => image_url :: l)

/-- Reddit._scrapePost of `src/reddit.py`.  Returns the urls the call
appends to `self._new_queue` (under the queue lock); `min_score` models
`self._settings["min_score"]`.  An error of `await submission.load()` is
not caught and propagates, as is a `KeyError` from the gallery scrape. -/
def scrapePost (net : Net) (submission : Submission) (min_score : Int) :
    Except String (List String) :=
  if submission.stickied then .ok []
  else if submission.is_self then .ok []
  else if submission.score < min_score then .ok []
  else if [".gif", ".gifv", "v.redd.it"].any (fun x => pyInB x submission.url) then
    .ok []
  else
    match submission.loadResult with
    | .error e => .error e
    | .ok _ =>
      if submission.is_gallery then scrapeGallery submission.media_metadata
      else .ok (scrapeImage net submission.url)

end Legacy

namespace Scripts

/-- Reddit.getUrl of the Scripts revision, run with no interleaved
writer: `getQueueSize` reads the size under the queue lock and
`EmptyQueueException` is raised when it is 0; otherwise `_rotateQueue`,
under a second acquisition of the queue lock, gets the head, puts it back
at the tail and returns it.  The element type matches the queue this
revision's swap installs (`List (Option String)`).  The concurrent
behaviour of the two separate lock sections against an in-flight swap is
modelled by the `ScriptsSwap` machine. -/
def getUrl : List (Option String) → Except PyErr (Option String × List (Option String))
  | [] => .error .emptyQueue
  | x :: rest => .ok (x, rest ++ [x])

end Scripts

namespace ScriptsSwap

/-- Progress of the Scripts-revision queue swap
(`scripts/modules/reddit.py` lines 247-261) through its critical section:
not started; holding `_queue_lock`; holding both locks; new queue built
and installed (and `_is_loading` cleared); `_temp_queue_lock` released;
both locks released. -/
inductive Phase where
  | idle
  | heldQ
  | heldBoth
  | installed
  | relT
  | done
  deriving DecidableEq, Repr

/-- The swap holds `_queue_lock` from its first acquire to its final
release. -/
def lockHeld : Phase → Bool
  | .idle => false
  | .heldQ => true
  | .heldBoth => true
  | .installed => true
  | .relT => true
  | .done => false

/-- A configuration: the serving-queue contents and the swap's phase. -/
structure Cfg where
  queue : List (Option String)
  phase : Phase
  deriving DecidableEq, Repr

/-- Observable events of `getUrl` calls interleaved with the swap: a size
check that passed (observing `observed`); a size check that saw 0 and
raised `EmptyQueueException`; a `_rotateQueue` section returning `url`
after observing `observed`; a `_rotateQueue` section finding the queue
empty, whose synchronous `Queue.get()` blocks forever; or an internal
swap micro-step. -/
inductive Ev where
  | checkedOk (observed : List (Option String))
  | emptyErr
  | rotated (url : Option String) (observed : List (Option String))
  | blocked
  | tau
  deriving DecidableEq, Repr

/-- Interleaving semantics, parametrised by the shuffled staging list
`s`.  Each lock section of a reader (`getQueueSize`'s read, or
`_rotateQueue`'s get+put) is one step enabled only while the swap does
not hold the queue lock — a reader may lose the lock between its size
check and its rotation; the swap acquires the queue lock, acquires the
staging lock, builds and installs the new queue and clears the flag in
one synchronous block, then releases the two locks. -/
inductive Step (s : List (Option String)) : Cfg → Ev → Cfg → Prop where
  | check (x : Option String) (rest : List (Option String)) (ph : Phase)
      (h : lockHeld ph = false) :
      Step s ⟨x :: rest, ph⟩ (.checkedOk (x :: rest)) ⟨x :: rest, ph⟩
  | checkEmpty (ph : Phase) (h : lockHeld ph = false) :
      Step s ⟨[], ph⟩ .emptyErr ⟨[], ph⟩
  | rotate (x : Option String) (rest : List (Option String)) (ph : Phase)
      (h : lockHeld ph = false) :
      Step s ⟨x :: rest, ph⟩ (.rotated x (x :: rest)) ⟨rest ++ [x], ph⟩
  | rotateBlocked (ph : Phase) (h : lockHeld ph = false) :
      Step s ⟨[], ph⟩ .blocked ⟨[], ph⟩
  | acquireQ (q : List (Option String)) : Step s ⟨q, .idle⟩ .tau ⟨q, .heldQ⟩
  | acquireT (q : List (Option String)) : Step s ⟨q, .heldQ⟩ .tau ⟨q, .heldBoth⟩
  | install (q : List (Option String)) : Step s ⟨q, .heldBoth⟩ .tau ⟨s, .installed⟩
  | releaseT (q : List (Option String)) : Step s ⟨q, .installed⟩ .tau ⟨q, .relT⟩
  | releaseQ (q : List (Option String)) : Step s ⟨q, .relT⟩ .tau ⟨q, .done⟩

/-- A finite execution: a sequence of steps with its event trace. -/
inductive Run (s : List (Option String)) : Cfg → List Ev → Cfg → Prop where
  | nil (c : Cfg) : Run s c [] c
  | cons {c c' c'' : Cfg} {e : Ev} {tr : List Ev}
      (st : Step s c e c') (r : Run s c' tr c'') : Run s c (e :: tr) c''

/-- Inductive invariant: before the install the queue is a rotation of
the initial contents `q0` (the swap mutates nothing while merely holding
the locks), and from the install on it is a rotation of `s`. -/
def Inv (q0 s : List (Option String)) : Cfg → Prop
  | ⟨q, .idle⟩ => q0.IsRotated q
  | ⟨q, .heldQ⟩ => q0.IsRotated q
  | ⟨q, .heldBoth⟩ => q0.IsRotated q
  | ⟨q, .installed⟩ => s.IsRotated q
  | ⟨q, .relT⟩ => s.IsRotated q
  | ⟨q, .done⟩ => s.IsRotated q

/-- Soundness of one observable event with respect to the initial queue
`q0` and the staging list `s`: every observation is a rotation of one of
the two, and emptiness (a raised `EmptyQueueException` or a blocked
`Queue.get`) forces one of the two to be empty. -/
def EvSound (q0 s : List (Option String)) : Ev → Prop
  | .checkedOk observed => q0.IsRotated observed ∨ s.IsRotated observed
  | .rotated _ observed => q0.IsRotated observed ∨ s.IsRotated observed
  | .emptyErr => q0 = [] ∨ s = []
  | .blocked => q0 = [] ∨ s = []
  | .tau => True

end ScriptsSwap

namespace SwapMachine

/-- Rotating one step (head to tail) is a rotation. -/
theorem isRotated_cons_append (x : String) (rest : List String) :
    (x :: rest).IsRotated (rest ++ [x]) :=
  ⟨1, by simp [List.rotate_cons_succ]⟩

/-- The invariant is preserved by every step, and every reader event is
consistent with it: a successful read observes a rotation of `q0` or of
`s`, and an `EmptyQueueException` forces `q0` or `s` to be empty. -/
theorem inv_step {q0 s : List String} {c c' : Cfg} {e : Ev}
    (hinv : Inv q0 s c) (hst : Step s c e c') :
    Inv q0 s c' ∧
      (∀ x obs, e = .took x obs → q0.IsRotated obs ∨ s.IsRotated obs) ∧
      (e = .emptyErr → q0 = [] ∨ s = []) := by
  cases hst with
  | take x rest ph h =>
    cases ph with
    | idle =>
      have hrot : q0.IsRotated (x :: rest) := hinv
      refine ⟨hrot.trans (isRotated_cons_append x rest), ?_, ?_⟩
      · intro y obs hobs
        injection hobs with h1 h2
        subst h2
        exact Or.inl hrot
      · intro hobs; exact Ev.noConfusion hobs
    | draining => simp [lockHeld] at h
    | putting rest' => simp [lockHeld] at h
    | done =>
      have hrot : s.IsRotated (x :: rest) := hinv
      refine ⟨hrot.trans (isRotated_cons_append x rest), ?_, ?_⟩
      · intro y obs hobs
        injection hobs with h1 h2
        subst h2
        exact Or.inr hrot
      · intro hobs; exact Ev.noConfusion hobs
  | takeEmpty ph h =>
    cases ph with
    | idle =>
      refine ⟨hinv, ?_, ?_⟩
      · intro y obs hobs; exact Ev.noConfusion hobs
      · intro _
        exact Or.inl (List.Perm.eq_nil (hinv : q0.IsRotated []).perm)
    | draining => simp [lockHeld] at h
    | putting rest' => simp [lockHeld] at h
    | done =>
      refine ⟨hinv, ?_, ?_⟩
      · intro y obs hobs; exact Ev.noConfusion hobs
      · intro _
        exact Or.inr (List.Perm.eq_nil (hinv : s.IsRotated []).perm)
  | acquire q =>
    refine ⟨trivial, ?_, ?_⟩
    · intro y obs hobs; exact Ev.noConfusion hobs
    · intro hobs; exact Ev.noConfusion hobs
  | drain x rest =>
    refine ⟨trivial, ?_, ?_⟩
    · intro y obs hobs; exact Ev.noConfusion hobs
    · intro hobs; exact Ev.noConfusion hobs
  | drained =>
    refine ⟨?_, ?_, ?_⟩
    · show ([] : List String) ++ s = s
      simp
    · intro y obs hobs; exact Ev.noConfusion hobs
    · intro hobs; exact Ev.noConfusion hobs
  | put q x rest =>
    refine ⟨?_, ?_, ?_⟩
    · show q ++ [x] ++ rest = s
      have hq : q ++ x :: rest = s := hinv
      rw [List.append_assoc, List.singleton_append]
      exact hq
    · intro y obs hobs; exact Ev.noConfusion hobs
    · intro hobs; exact Ev.noConfusion hobs
  | release q =>
    refine ⟨?_, ?_, ?_⟩
    · show s.IsRotated q
      have hq : q ++ [] = s := hinv
      rw [List.append_nil] at hq
      exact hq ▸ List.IsRotated.refl q
    · intro y obs hobs; exact Ev.noConfusion hobs
    · intro hobs; exact Ev.noConfusion hobs

/-- Trace soundness over a whole run from an invariant configuration. -/
theorem run_events {q0 s : List String} {c c' : Cfg} {tr : List Ev}
    (hrun : Run s c tr c') (hinv : Inv q0 s c) :
    (∀ x obs, Ev.took x obs ∈ tr → q0.IsRotated obs ∨ s.IsRotated obs) ∧
      (Ev.emptyErr ∈ tr → q0 = [] ∨ s = []) := by
  induction hrun with
  | nil c =>
    refine ⟨?_, ?_⟩
    · intro x obs h; cases h
    · intro h; cases h
  | cons hst hr ih =>
    rename_i c c' c'' e tr
    obtain ⟨hinv', hobs, hemp⟩ := inv_step hinv hst
    obtain ⟨ihobs, ihemp⟩ := ih hinv'
    refine ⟨?_, ?_⟩
    · intro x obs hmem
      rcases List.mem_cons.mp hmem with heq | hmem'
      · exact hobs x obs heq.symm
      · exact ihobs x obs hmem'
    · intro hmem
      rcases List.mem_cons.mp hmem with heq | hmem'
      · exact hemp heq.symm
      · exact ihemp hmem'

end SwapMachine

/-- Rotating one step (head to tail) is a rotation, for any element
type. -/
theorem rotate_head_isRotated {α : Type} (x : α) (rest : List α) :
    (x :: rest).IsRotated (rest ++ [x]) :=
  ⟨1, by simp [List.rotate_cons_succ]⟩

namespace ScriptsSwap

/-- The queue lock is free exactly in the idle and done phases. -/
theorem lockFree_cases (ph : Phase) (h : lockHeld ph = false) :
    ph = Phase.idle ∨ ph = Phase.done := by
  cases ph with
  | idle => exact Or.inl rfl
  | done => exact Or.inr rfl
  | heldQ => simp [lockHeld] at h
  | heldBoth => simp [lockHeld] at h
  | installed => simp [lockHeld] at h
  | relT => simp [lockHeld] at h

/-- The invariant is preserved by every step, and every observable event
of the step is sound. -/
theorem inv_step_scripts {q0 s : List (Option String)} {c c' : Cfg} {e : Ev}
    (hinv : Inv q0 s c) (hst : Step s c e c') :
    Inv q0 s c' ∧ EvSound q0 s e := by
  cases hst with
  | check x rest ph h =>
    rcases lockFree_cases ph h with rfl | rfl
    · exact ⟨hinv, Or.inl hinv⟩
    · exact ⟨hinv, Or.inr hinv⟩
  | checkEmpty ph h =>
    rcases lockFree_cases ph h with rfl | rfl
    · exact ⟨hinv, Or.inl (List.Perm.eq_nil (hinv : q0.IsRotated []).perm)⟩
    · exact ⟨hinv, Or.inr (List.Perm.eq_nil (hinv : s.IsRotated []).perm)⟩
  | rotate x rest ph h =>
    rcases lockFree_cases ph h with rfl | rfl
    · exact ⟨(hinv : q0.IsRotated (x :: rest)).trans (rotate_head_isRotated x rest),
        Or.inl hinv⟩
    · exact ⟨(hinv : s.IsRotated (x :: rest)).trans (rotate_head_isRotated x rest),
        Or.inr hinv⟩
  | rotateBlocked ph h =>
    rcases lockFree_cases ph h with rfl | rfl
    · exact ⟨hinv, Or.inl (List.Perm.eq_nil (hinv : q0.IsRotated []).perm)⟩
    · exact ⟨hinv, Or.inr (List.Perm.eq_nil (hinv : s.IsRotated []).perm)⟩
  | acquireQ q => exact ⟨hinv, trivial⟩
  | acquireT q => exact ⟨hinv, trivial⟩
  | install q => exact ⟨List.IsRotated.refl s, trivial⟩
  | releaseT q => exact ⟨hinv, trivial⟩
  | releaseQ q => exact ⟨hinv, trivial⟩

/-- Every event of a run from an invariant configuration is sound. -/
theorem run_events_scripts {q0 s : List (Option String)} {c c' : Cfg} {tr : List Ev}
    (hrun : Run s c tr c') (hinv : Inv q0 s c) :
    ∀ e ∈ tr, EvSound q0 s e := by
  induction hrun with
  | nil c => intro e he; cases he
  | cons hst hr ih =>
    obtain ⟨hinv', hev⟩ := inv_step_scripts hinv hst
    intro e he
    rcases List.mem_cons.mp he with heq | hmem
    · exact heq ▸ hev
    · exact ih hinv' e hmem

end ScriptsSwap

/-- C3 (confirmed): for a serving queue holding exactly [a, b, c], four
consecutive take-next calls (`getImage` of `src/reddit.py`, `getUrl` of
the Scripts revision, `getPhoto` of the Corgos revision) return a, b, c,
a in that order, and the queue holds 3 items before and after each call
(for `getUrl` the queue elements are the staged `Option` values its
revision's swap installs). -/
theorem rotation_cycle (a b c : String) :
    Legacy.getImage [a, b, c] = .ok (a, [b, c, a]) ∧
    Legacy.getImage [b, c, a] = .ok (b, [c, a, b]) ∧
    Legacy.getImage [c, a, b] = .ok (c, [a, b, c]) ∧
    Legacy.getImage [a, b, c] = .ok (a, [b, c, a]) ∧
    Scripts.getUrl [some a, some b, some c] = .ok (some a, [some b, some c, some a]) ∧
    Scripts.getUrl [some b, some c, some a] = .ok (some b, [some c, some a, some b]) ∧
    Scripts.getUrl [some c, some a, some b] = .ok (some c, [some a, some b, some c]) ∧
    Scripts.getUrl [some a, some b, some c] = .ok (some a, [some b, some c, some a]) ∧
    Corgos.getPhoto [a, b, c] = .ok (a, [b, c, a]) ∧
    Corgos.getPhoto [b, c, a] = .ok (b, [c, a, b]) ∧
    Corgos.getPhoto [c, a, b] = .ok (c, [a, b, c]) ∧
    Corgos.getPhoto [a, b, c] = .ok (a, [b, c, a]) ∧
    ([a, b, c] : List String).length = 3 ∧
    ([b, c, a] : List String).length = 3 ∧
    ([c, a, b] : List String).length = 3 ∧
    ([some a, some b, some c] : List (Option String)).length = 3 ∧
    ([some b, some c, some a] : List (Option String)).length = 3 ∧
    ([some c, some a, some b] : List (Option String)).length = 3 :=
  ⟨rfl, rfl, rfl, rfl, rfl, rfl, rfl, rfl, rfl, rfl, rfl, rfl, rfl, rfl, rfl,
    rfl, rfl, rfl⟩

/-- C4 (code_bug): a gallery entry whose declared format is in the image
allow-list is not accepted at all — both revisions of `_scrapeGallery`
execute `continue` on that branch (while logging "adding to queue") and
contribute zero urls, for every network oracle. -/
theorem gallery_allowlist_dropped (net : Net) :
    Scripts.scrapeGallery net exGalleryEntry = [] ∧
    Corgos.scrapeGallery exGalleryEntry = [] :=
  ⟨rfl, rfl⟩

/-- C10 (confirmed): constructing `Settings` with no positional argument
and no `settings_path` keyword raises `IndexError` from `args[0]` in
`SingletonMeta.__call__`, whatever the current singleton state — the
declared default path "settings.json" of `Settings.__init__` is never
reached. -/
theorem settings_no_default_path (m : Corgos.Meta) :
    Corgos.SingletonMeta.call [] none m = .error .indexError :=
  rfl

/-- C7 counterexample: a `loadPostsAsync` run that terminates by raising
an error before the swap (here a pipeline-level listing failure) leaves
`is_loading` equal to true, although the run is over — the claim requires
it to be false at every instant outside a run. -/
theorem is_loading_stuck_counterexample :
    (Corgos.loadPostsAsync "cache" (.error "listing failed") 5 id ⟨[], false⟩).1.isLoading
        = true ∧
      (Corgos.loadPostsAsync "cache" (.error "listing failed") 5 id ⟨[], false⟩).2
        = .error "listing failed" :=
  ⟨rfl, rfl⟩

/-- C7 (corrected): `is_loading` is set to true on the first line of
`loadPostsAsync` and stays true until the swap of a successful run
completes, after which it is false; but a run that raises before the swap
terminates with the flag still true (there is no `try`/`finally`
resetting it), and the serving queue is left untouched. -/
theorem is_loading_amended (folder : String)
    (listing : Except String (List Submission)) (min_score : Int)
    (oracle : List String → List String) (st : Corgos.CState) :
    (Corgos.loadingDuring st).isLoading = true ∧
    (∀ e, listing = .error e →
      Corgos.loadPostsAsync folder listing min_score oracle st
        = (Corgos.loadingDuring st, .error e)) ∧
    (∀ subs, listing = .ok subs →
      (Corgos.loadPostsAsync folder listing min_score oracle st).1.isLoading = false ∧
        ∃ n, (Corgos.loadPostsAsync folder listing min_score oracle st).2 = .ok n) := by
  refine ⟨rfl, ?_, ?_⟩
  · intro e he
    subst he
    rfl
  · intro subs hs
    subst hs
    exact ⟨rfl, _, rfl⟩

/-- C7 witness: the amended theorem applied to a concrete failing run and
a concrete successful run. -/
theorem is_loading_amended_witness :
    Corgos.loadPostsAsync "cache" (.error "down") 5 id ⟨["q"], false⟩
        = (Corgos.loadingDuring ⟨["q"], false⟩, .error "down") ∧
      (Corgos.loadPostsAsync "cache" (.ok []) 5 id ⟨["q"], false⟩).1.isLoading = false :=
  ⟨(is_loading_amended "cache" (.error "down") 5 id ⟨["q"], false⟩).2.1 "down" rfl,
    ((is_loading_amended "cache" (.ok []) 5 id ⟨["q"], false⟩).2.2 [] rfl).1⟩

/-- Python `list.remove` raises `ValueError` when no element matches. -/
theorem pyListRemove_not_mem (q : List String) (url : String) (h : url ∉ q) :
    Legacy.pyListRemove q url = .error .valueError := by
  induction q with
  | nil => rfl
  | cons x xs ih =>
    have hx : x ≠ url := fun hc => h (hc ▸ List.mem_cons_self x xs)
    have hxs : url ∉ xs := fun hc => h (List.mem_cons_of_mem x hc)
    simp [Legacy.pyListRemove, hx, ih hxs, Except.map]

/-- Python `list.remove` deletes exactly the first matching element. -/
theorem pyListRemove_first (l1 l2 : List String) (url : String) (h : url ∉ l1) :
    Legacy.pyListRemove (l1 ++ url :: l2) url = .ok (l1 ++ l2) := by
  induction l1 with
  | nil => simp [Legacy.pyListRemove]
  | cons x xs ih =>
    have hx : x ≠ url := fun hc => h (hc ▸ List.mem_cons_self x xs)
    have hxs : url ∉ xs := fun hc => h (List.mem_cons_of_mem x hc)
    simp [Legacy.pyListRemove, hx, ih hxs, Except.map]

/-- C6 counterexample: removing a url that is absent from the queue is
not a silent no-op — `removeImage` (which runs `list.remove`) raises
`ValueError` on the queue ["a"] and the absent url "b". -/
theorem removeImage_absent_raises :
    Legacy.removeImage ["a"] "b" = .error .valueError ∧
      "b" ∉ (["a"] : List String) :=
  ⟨rfl, by decide⟩

/-- C6 (corrected): when the url is present, `removeImage` deletes
exactly its first occurrence and leaves the remaining items in their
relative order; when it is absent, `removeImage` raises `ValueError`
instead of completing as a no-op; and the Scripts-revision `removeUrl`
raises `TypeError` on every call (it applies `len` to a `queue.Queue`). -/
theorem remove_amended (l1 l2 q : List String) (url : String)
    (h1 : url ∉ l1) (h2 : url ∉ q) :
    Legacy.removeImage (l1 ++ url :: l2) url = .ok (l1 ++ l2) ∧
    Legacy.removeImage q url = .error .valueError ∧
    Scripts.removeUrl q url = .error .typeError :=
  ⟨pyListRemove_first l1 l2 url h1, pyListRemove_not_mem q url h2, rfl⟩

/-- C6 witness: the amended theorem at the queue ["x", "u", "y"] with the
url "u" and at the queue ["x"] with the absent url "u". -/
theorem remove_amended_witness :
    Legacy.removeImage ["x", "u", "y"] "u" = .ok ["x", "y"] ∧
    Legacy.removeImage ["x"] "u" = .error .valueError ∧
    Scripts.removeUrl ["x"] "u" = .error .typeError :=
  remove_amended ["x"] ["y"] ["x"] "u" (by decide) (by decide)

/-- C2 counterexample: in a pass over one good submission (which yields
an accepted url) and one submission whose `submission.load()` raises,
`asyncio.gather` propagates the exception, `loadPostsAsync` terminates
with the error before the swap, and the good submission's accepted url is
not installed: the serving queue still holds its previous contents. -/
theorem gather_failfast_counterexample :
    Scripts.scrapePost exNet exGood 5
        = .ok (true, [some "https://i.redd.it/good.jpg"]) ∧
      Scripts.loadPostsAsync exNet (.ok [exGood, exBad]) 5 id ⟨[some "old"], false⟩
        = (⟨[some "old"], true⟩, .error "connection reset") ∧
      some "https://i.redd.it/good.jpg" ∉ ([some "old"] : List (Option String)) :=
  ⟨rfl, rfl, by decide⟩

/-- C2 (corrected): an exception inside a per-item HTTP validation
request is caught in `_scrapeImage` and only makes that item contribute
no url, and when every `_scrapePost` task completes without raising the
pass finishes with the flag cleared and every staged value installed in
the serving queue; but an exception that escapes a task itself propagates
through `asyncio.gather`, so the pass terminates with the error before
the swap and the serving queue is left unchanged. -/
theorem gather_error_isolation_amended (net : Net) (subs : List Submission)
    (min_score : Int) (st : Scripts.RState)
    (oracle : List (Option String) → List (Option String))
    (hperm : ∀ l, (oracle l).Perm l) :
    (∀ u e, net u = .error e → Scripts.scrapeImage net u = none) ∧
    (∀ contrib, Scripts.gatherTasks net subs min_score = .ok contrib →
      (Scripts.loadPostsAsync net (.ok subs) min_score oracle st).1.isLoading = false ∧
      (∀ u, u ∈ contrib →
        u ∈ (Scripts.loadPostsAsync net (.ok subs) min_score oracle st).1.queue)) ∧
    (∀ e, Scripts.gatherTasks net subs min_score = .error e →
      Scripts.loadPostsAsync net (.ok subs) min_score oracle st
        = (⟨st.queue, true⟩, .error e)) := by
  refine ⟨?_, ?_, ?_⟩
  · intro u e he
    simp [Scripts.scrapeImage, he]
  · intro contrib hok
    constructor
    · simp [Scripts.loadPostsAsync, hok]
    · intro u hu
      simp only [Scripts.loadPostsAsync, hok]
      exact ((hperm contrib.dedup).mem_iff).mpr (List.mem_dedup.mpr hu)
  · intro e herr
    simp [Scripts.loadPostsAsync, herr]

/-- C2 witness: the amended theorem at a concrete network, one good
submission and the identity shuffle. -/
theorem gather_error_isolation_witness :
    Scripts.scrapeImage exNet "https://i.redd.it/bad.jpg" = none ∧
      some "https://i.redd.it/good.jpg" ∈
        (Scripts.loadPostsAsync exNet (.ok [exGood]) 5 id ⟨[], false⟩).1.queue :=
  ⟨(gather_error_isolation_amended exNet [exGood] 5 ⟨[], false⟩ id
        (fun l => List.Perm.refl l)).1 "https://i.redd.it/bad.jpg" "unreachable" rfl,
    ((gather_error_isolation_amended exNet [exGood] 5 ⟨[], false⟩ id
        (fun l => List.Perm.refl l)).2.1 [some "https://i.redd.it/good.jpg"] rfl).2
      (some "https://i.redd.it/good.jpg") (by decide)⟩

/-- C5 counterexample: in the Corgos revision a non-gallery candidate
with score 10 and a jpeg url contributes exactly one accepted item, but
that item is the derived cache filepath, not the candidate's source
url. -/
theorem corgos_filepath_counterexample :
    Corgos.scrapePost "cache" exGood 5 = (true, ["cache/0_good.jpg"]) ∧
      "cache/0_good.jpg" ≠ "https://i.redd.it/good.jpg" :=
  ⟨rfl, by decide⟩

/-- C5 (corrected): a candidate with score 2 under the configured minimum
score 5 contributes zero accepted items in all three revisions; a
non-gallery candidate with score 10, not pinned, not self-text, whose
HTTP response carries content-type image/jpeg contributes exactly one
accepted item — equal to the candidate's source url in the url-serving
revisions (`src/reddit.py` and Scripts), and equal to the cache filepath
derived from that url in the Corgos revision. -/
theorem validator_scenario_amended (net : Net) (sub : Submission) (folder : String)
    (h1 : sub.stickied = false) (h2 : sub.is_self = false)
    (h3 : sub.is_gallery = false) (h4 : sub.loadResult = .ok ())
    (h5 : pyInB ".gif" sub.url = false) (h6 : pyInB ".gifv" sub.url = false)
    (h7 : pyInB "v.redd.it" sub.url = false)
    (h8 : net sub.url = .ok ⟨[("content-type", "image/jpeg")]⟩) :
    (sub.score = 2 →
      Legacy.scrapePost net sub 5 = .ok [] ∧
        Scripts.scrapePost net sub 5 = .ok (false, []) ∧
        Corgos.scrapePost folder sub 5 = (false, [])) ∧
    (sub.score = 10 →
      Legacy.scrapePost net sub 5 = .ok [sub.url] ∧
        Scripts.scrapePost net sub 5 = .ok (true, [some sub.url]) ∧
        Corgos.scrapePost folder sub 5
          = (true, [Corgos.extractFilenameFromUrl folder 0 sub.url])) := by
  constructor
  · intro hscore
    refine ⟨?_, ?_, ?_⟩
    · simp [Legacy.scrapePost, h1, h2, hscore]
    · simp [Scripts.scrapePost, h1, h2, hscore]
    · simp [Corgos.scrapePost, h1, h2, hscore]
  · intro hscore
    refine ⟨?_, ?_, ?_⟩
    · simp [Legacy.scrapePost, h1, h2, h3, h4, h5, h6, h7, hscore,
        Legacy.scrapeImage, h8, headerLookup, Legacy.image_formats]
    · simp [Scripts.scrapePost, h1, h2, h3, h4, h5, h6, h7, hscore,
        Scripts.scrapeImage, h8, headerLookup, Scripts.image_formats]
    · simp [Corgos.scrapePost, h1, h2, h3, h7, hscore, List.enum]

/-- C5 witness: the amended theorem at the concrete jpeg candidate, with
score 10 as given and with the score overridden to 2. -/
theorem validator_scenario_witness :
    (Legacy.scrapePost exNet exGood 5 = .ok ["https://i.redd.it/good.jpg"] ∧
      Scripts.scrapePost exNet exGood 5
        = .ok (true, [some "https://i.redd.it/good.jpg"]) ∧
      Corgos.scrapePost "cache" exGood 5
        = (true, [Corgos.extractFilenameFromUrl "cache" 0 "https://i.redd.it/good.jpg"])) ∧
    (Legacy.scrapePost exNet ⟨exGood.url, false, false, 2, false, [], .ok ()⟩ 5
        = .ok [] ∧
      Scripts.scrapePost exNet ⟨exGood.url, false, false, 2, false, [], .ok ()⟩ 5
        = .ok (false, []) ∧
      Corgos.scrapePost "cache" ⟨exGood.url, false, false, 2, false, [], .ok ()⟩ 5
        = (false, [])) :=
  ⟨(validator_scenario_amended exNet exGood "cache" rfl rfl rfl rfl
      (by decide) (by decide) (by decide) rfl).2 rfl,
    (validator_scenario_amended exNet ⟨exGood.url, false, false, 2, false, [], .ok ()⟩
      "cache" rfl rfl rfl rfl (by decide) (by decide) (by decide) rfl).1 rfl⟩

/-- Reading a key just written into a dict yields the written value. -/
theorem dictGet_dictSet_self (d : Dict) (k : String) (v : SVal) :
    dictGet (dictSet d k v) k = some v := by
  induction d with
  | nil => simp [dictSet, dictGet]
  | cons e rest ih =>
    by_cases hk : e.1 = k
    · simp [dictSet, dictGet, hk]
    · simp [dictSet, dictGet, hk, ih]

/-- C9 (confirmed): for a key already present in the settings, `set`
updates the in-memory value and writes the whole mapping through to the
backing file before returning, and a fresh `load` from the same backing
path followed by `get` returns the value that was set. -/
theorem settings_write_through (obj : Corgos.Settings) (fs : FS) (key : String)
    (v w : SVal) (other : Corgos.Settings)
    (hkey : dictGet obj.settings key = some w) (hpath : other.path = obj.path) :
    ∃ obj' fs', obj.set fs key v = .ok (obj', fs') ∧
      fs' obj.path = some obj'.settings ∧
      (other.load fs').bind (fun o => o.get key) = .ok v := by
  refine ⟨{ obj with settings := dictSet obj.settings key v },
    fun p => if p = obj.path then some (dictSet obj.settings key v) else fs p,
    ?_, ?_, ?_⟩
  · simp [Corgos.Settings.set, hkey]
  · simp
  · simp [Corgos.Settings.load, hpath, Except.bind, Corgos.Settings.get,
      dictGet_dictSet_self]

/-- C9 witness: the write-through theorem at a concrete one-key settings
object, an empty file system and a fresh reader at the same path. -/
theorem settings_write_through_witness :
    ∃ obj' fs',
      Corgos.Settings.set ⟨"settings.json", [("reddit_min_score", SVal.int 5)]⟩
          (fun _ => none) "reddit_min_score" (SVal.int 9) = .ok (obj', fs') ∧
        fs' "settings.json" = some obj'.settings ∧
        (Corgos.Settings.load ⟨"settings.json", []⟩ fs').bind
            (fun o => o.get "reddit_min_score") = .ok (SVal.int 9) :=
  settings_write_through ⟨"settings.json", [("reddit_min_score", SVal.int 5)]⟩
    (fun _ => none) "reddit_min_score" (SVal.int 9) (SVal.int 5)
    ⟨"settings.json", []⟩ rfl rfl

/-- C8 counterexample: in the Scripts revision the singleton registry is
keyed by the class alone, so constructing `Settings` for "a.json" and
then for the distinct path "b.json" returns the same live instance — the
one bound to "a.json" — contradicting one-instance-per-path. -/
theorem scripts_singleton_counterexample :
    Scripts.SingletonMeta.call "a.json" ⟨none, 0⟩
        = (0, ⟨some (0, ⟨"a.json", []⟩), 1⟩) ∧
      Scripts.SingletonMeta.call "b.json" ⟨some (0, ⟨"a.json", []⟩), 1⟩
        = (0, ⟨some (0, ⟨"a.json", []⟩), 1⟩) ∧
      "a.json" ≠ "b.json" :=
  ⟨rfl, rfl, by decide⟩

/-- A construction call that finds the path registered returns the
registered instance and leaves the singleton state unchanged. -/
theorem call_find_some {m : Corgos.Meta} {p : String} {e : String × Nat}
    (hf : m.registry.find? (fun q => q.1 == p) = some e) :
    Corgos.SingletonMeta.call [] (some p) m = .ok (e.2, m) := by
  simp [Corgos.SingletonMeta.call, hf]

/-- A construction call for an unregistered path creates, registers and
returns a fresh instance. -/
theorem call_find_none {m : Corgos.Meta} {p : String}
    (hf : m.registry.find? (fun q => q.1 == p) = none) :
    Corgos.SingletonMeta.call [] (some p) m
      = .ok (m.fresh, ⟨(p, m.fresh) :: m.registry,
          fun i => if i = m.fresh then ⟨p, []⟩ else m.store i, m.fresh + 1⟩) := by
  simp [Corgos.SingletonMeta.call, hf]

/-- C8 (corrected): in the Corgos revision a second construction call
with the same backing path returns the same live instance and leaves the
singleton state unchanged, a `set` through a shared instance is
observable via `get` through the same instance identity without a load,
and (from a well-formed singleton state) construction calls with distinct
backing paths return distinct instances, each bound to its own path; the
Scripts revision instead keys the registry by class alone, so every
construction call returns the first-created instance whatever path is
passed. -/
theorem singleton_by_path_amended :
    (∀ (m : Corgos.Meta) (p : String) (i : Nat) (m' : Corgos.Meta),
      Corgos.SingletonMeta.call [] (some p) m = .ok (i, m') →
      Corgos.SingletonMeta.call [] (some p) m' = .ok (i, m')) ∧
    (∀ (m : Corgos.Meta) (fs : FS) (i : Nat) (key : String) (v w : SVal),
      dictGet ((m.store i).settings) key = some w →
      ∃ m' fs', Corgos.setById m fs i key v = .ok (m', fs') ∧
        Corgos.getById m' i key = .ok v) ∧
    (∀ (m : Corgos.Meta) (p1 p2 : String) (i1 : Nat) (m1 : Corgos.Meta)
        (i2 : Nat) (m2 : Corgos.Meta),
      Corgos.MetaWF m → p1 ≠ p2 →
      Corgos.SingletonMeta.call [] (some p1) m = .ok (i1, m1) →
      Corgos.SingletonMeta.call [] (some p2) m1 = .ok (i2, m2) →
      i1 ≠ i2 ∧ (m2.store i1).path = p1 ∧ (m2.store i2).path = p2) ∧
    (∀ (p1 p2 : String) (m : Scripts.Meta) (i : Nat) (inst : Scripts.Settings),
      m.instances = some (i, inst) →
      Scripts.SingletonMeta.call p1 m = (i, m) ∧
        Scripts.SingletonMeta.call p2 m = (i, m)) := by
  refine ⟨?_, ?_, ?_, ?_⟩
  · intro m p i m' h
    cases hf : m.registry.find? (fun q => q.1 == p) with
    | some e =>
      rw [call_find_some hf] at h
      simp only [Except.ok.injEq, Prod.mk.injEq] at h
      obtain ⟨hi, hm⟩ := h
      subst hi
      subst hm
      exact call_find_some hf
    | none =>
      rw [call_find_none hf] at h
      simp only [Except.ok.injEq, Prod.mk.injEq] at h
      obtain ⟨hi, hm⟩ := h
      subst hi
      subst hm
      exact @call_find_some _ p (p, m.fresh) (by simp [List.find?])
  · intro m fs i key v w hk
    refine ⟨⟨m.registry,
        fun j => if j = i then ⟨(m.store i).path, dictSet (m.store i).settings key v⟩
          else m.store j,
        m.fresh⟩,
      fun q => if q = (m.store i).path then some (dictSet (m.store i).settings key v)
        else fs q,
      ?_, ?_⟩
    · simp [Corgos.setById, Corgos.Settings.set, hk]
    · simp [Corgos.getById, Corgos.Settings.get, dictGet_dictSet_self]
  · intro m p1 p2 i1 m1 i2 m2 hwf hne h1 h2
    cases hf1 : m.registry.find? (fun q => q.1 == p1) with
    | some e1 =>
      rw [call_find_some hf1] at h1
      simp only [Except.ok.injEq, Prod.mk.injEq] at h1
      obtain ⟨hi1, hm1⟩ := h1
      subst hi1
      subst hm1
      have he1mem : e1 ∈ m.registry := List.mem_of_find?_eq_some hf1
      have he1p : e1.1 = p1 := by
        have hb := List.find?_some hf1
        exact eq_of_beq hb
      have he1wf := hwf.1 e1 he1mem
      cases hf2 : m.registry.find? (fun q => q.1 == p2) with
      | some e2 =>
        rw [call_find_some hf2] at h2
        simp only [Except.ok.injEq, Prod.mk.injEq] at h2
        obtain ⟨hi2, hm2⟩ := h2
        subst hi2
        subst hm2
        have he2mem : e2 ∈ m.registry := List.mem_of_find?_eq_some hf2
        have he2p : e2.1 = p2 := by
          have hb := List.find?_some hf2
          exact eq_of_beq hb
        have he2wf := hwf.1 e2 he2mem
        refine ⟨?_, he1p ▸ he1wf.2, he2p ▸ he2wf.2⟩
        intro hc
        exact hne (he1p ▸ he2p ▸ hwf.2 e1 he1mem e2 he2mem hc)
      | none =>
        rw [call_find_none hf2] at h2
        simp only [Except.ok.injEq, Prod.mk.injEq] at h2
        obtain ⟨hi2, hm2⟩ := h2
        subst hi2
        subst hm2
        have hlt : e1.2 < m.fresh := he1wf.1
        refine ⟨Nat.ne_of_lt hlt, ?_, ?_⟩
        · show (if e1.2 = m.fresh then (⟨p2, []⟩ : Corgos.Settings)
              else m.store e1.2).path = p1
          rw [if_neg (Nat.ne_of_lt hlt)]
          exact he1p ▸ he1wf.2
        · show (if m.fresh = m.fresh then (⟨p2, []⟩ : Corgos.Settings)
              else m.store m.fresh).path = p2
          rw [if_pos rfl]
    | none =>
      rw [call_find_none hf1] at h1
      simp only [Except.ok.injEq, Prod.mk.injEq] at h1
      obtain ⟨hi1, hm1⟩ := h1
      subst hi1
      subst hm1
      have hbeq : (p1 == p2) = false := beq_eq_false_iff_ne.mpr hne
      have hfind1 : ((p1, m.fresh) :: m.registry).find? (fun q => q.1 == p2)
          = m.registry.find? (fun q => q.1 == p2) := by
        simp [List.find?, hbeq]
      cases hf2 : m.registry.find? (fun q => q.1 == p2) with
      | some e2 =>
        rw [call_find_some (hfind1.trans hf2)] at h2
        simp only [Except.ok.injEq, Prod.mk.injEq] at h2
        obtain ⟨hi2, hm2⟩ := h2
        subst hi2
        subst hm2
        have he2mem : e2 ∈ m.registry := List.mem_of_find?_eq_some hf2
        have he2p : e2.1 = p2 := by
          have hb := List.find?_some hf2
          exact eq_of_beq hb
        have he2wf := hwf.1 e2 he2mem
        have hlt : e2.2 < m.fresh := he2wf.1
        refine ⟨(Nat.ne_of_lt hlt).symm, ?_, ?_⟩
        · show (if m.fresh = m.fresh then (⟨p1, []⟩ : Corgos.Settings)
              else m.store m.fresh).path = p1
          rw [if_pos rfl]
        · show (if e2.2 = m.fresh then (⟨p1, []⟩ : Corgos.Settings)
              else m.store e2.2).path = p2
          rw [if_neg (Nat.ne_of_lt hlt)]
          exact he2p ▸ he2wf.2
      | none =>
        rw [call_find_none (hfind1.trans hf2)] at h2
        simp only [Except.ok.injEq, Prod.mk.injEq] at h2
        obtain ⟨hi2, hm2⟩ := h2
        subst hi2
        subst hm2
        have hne01 : m.fresh ≠ m.fresh + 1 := Nat.ne_of_lt (Nat.lt_succ_self _)
        refine ⟨hne01, ?_, ?_⟩
        · show (if m.fresh = m.fresh + 1 then (⟨p2, []⟩ : Corgos.Settings)
              else if m.fresh = m.fresh then ⟨p1, []⟩ else m.store m.fresh).path = p1
          rw [if_neg hne01, if_pos rfl]
        · show (if m.fresh + 1 = m.fresh + 1 then (⟨p2, []⟩ : Corgos.Settings)
              else if m.fresh + 1 = m.fresh then ⟨p1, []⟩
                else m.store (m.fresh + 1)).path = p2
          rw [if_pos rfl]
  · intro p1 p2 m i inst hm
    constructor <;> simp [Scripts.SingletonMeta.call, hm]

/-- C8 witness: the amended singleton theorem at concrete construction
sequences starting from the empty singleton state — a repeated
construction for "a.json" returns the same instance, constructions for
"a.json" and then "b.json" return distinct instances bound to their own
paths, a set through a live instance is readable back through it, and the
Scripts-revision singleton returns the "a.json"-bound instance when asked
for "b.json". -/
theorem singleton_by_path_witness :
    Corgos.SingletonMeta.call [] (some "a.json")
        ⟨[("a.json", 0)],
          fun i => if i = 0 then ⟨"a.json", []⟩ else Corgos.emptyMeta.store i, 1⟩
      = .ok (0, ⟨[("a.json", 0)],
          fun i => if i = 0 then ⟨"a.json", []⟩ else Corgos.emptyMeta.store i, 1⟩) ∧
    ((0 : Nat) ≠ 1 ∧
      ((⟨[("b.json", 1), ("a.json", 0)],
          fun i => if i = 1 then ⟨"b.json", []⟩
            else if i = 0 then ⟨"a.json", []⟩ else Corgos.emptyMeta.store i,
          2⟩ : Corgos.Meta).store 0).path = "a.json" ∧
      ((⟨[("b.json", 1), ("a.json", 0)],
          fun i => if i = 1 then ⟨"b.json", []⟩
            else if i = 0 then ⟨"a.json", []⟩ else Corgos.emptyMeta.store i,
          2⟩ : Corgos.Meta).store 1).path = "b.json") ∧
    (∃ m' fs',
      Corgos.setById ⟨[], fun _ => ⟨"p.json", [("k", SVal.int 1)]⟩, 0⟩
          (fun _ => none) 0 "k" (SVal.int 2) = .ok (m', fs') ∧
        Corgos.getById m' 0 "k" = .ok (SVal.int 2)) ∧
    Scripts.SingletonMeta.call "b.json" ⟨some (0, ⟨"a.json", []⟩), 1⟩
      = (0, ⟨some (0, ⟨"a.json", []⟩), 1⟩) :=
  ⟨singleton_by_path_amended.1 Corgos.emptyMeta "a.json" 0
      ⟨[("a.json", 0)],
        fun i => if i = 0 then ⟨"a.json", []⟩ else Corgos.emptyMeta.store i, 1⟩ rfl,
    singleton_by_path_amended.2.2.1 Corgos.emptyMeta "a.json" "b.json" 0
      ⟨[("a.json", 0)],
        fun i => if i = 0 then ⟨"a.json", []⟩ else Corgos.emptyMeta.store i, 1⟩ 1
      ⟨[("b.json", 1), ("a.json", 0)],
        fun i => if i = 1 then ⟨"b.json", []⟩
          else if i = 0 then ⟨"a.json", []⟩ else Corgos.emptyMeta.store i, 2⟩
      (by simp [Corgos.MetaWF, Corgos.emptyMeta]) (by decide) rfl rfl,
    singleton_by_path_amended.2.1 ⟨[], fun _ => ⟨"p.json", [("k", SVal.int 1)]⟩, 0⟩
      (fun _ => none) 0 "k" (SVal.int 2) (SVal.int 1) rfl,
    (singleton_by_path_amended.2.2.2 "a.json" "b.json"
      ⟨some (0, ⟨"a.json", []⟩), 1⟩ 0 ⟨"a.json", []⟩ rfl).2⟩

/-- C1 counterexample: with a non-empty pre-swap queue and an empty
staging set, both revisions admit an execution interleaving the swap with
take-next calls in which a call raises `EmptyQueueException`: a `getPhoto`
call after the Corgos swap finds the drained-and-unrefilled queue empty,
and a `getUrl` size check after the Scripts swap reads size 0 — although
the claim forbids any EmptyQueue whenever the pre-swap queue was
non-empty. -/
theorem swap_empty_staging_counterexample :
    (∃ (tr : List SwapMachine.Ev) (c' : SwapMachine.Cfg),
      SwapMachine.Run [] ⟨["a"], .idle⟩ tr c' ∧
        SwapMachine.Ev.emptyErr ∈ tr ∧ (["a"] : List String) ≠ []) ∧
    (∃ (tr : List ScriptsSwap.Ev) (c' : ScriptsSwap.Cfg),
      ScriptsSwap.Run [] ⟨[some "a"], .idle⟩ tr c' ∧
        ScriptsSwap.Ev.emptyErr ∈ tr ∧ ([some "a"] : List (Option String)) ≠ []) :=
  ⟨⟨[.tau, .tau, .tau, .tau, .emptyErr], ⟨[], .done⟩,
    SwapMachine.Run.cons (SwapMachine.Step.acquire ["a"])
      (SwapMachine.Run.cons (SwapMachine.Step.drain "a" [])
        (SwapMachine.Run.cons SwapMachine.Step.drained
          (SwapMachine.Run.cons (SwapMachine.Step.release [])
            (SwapMachine.Run.cons (SwapMachine.Step.takeEmpty .done rfl)
              (SwapMachine.Run.nil ⟨[], .done⟩))))),
    by decide, by decide⟩,
  ⟨[.tau, .tau, .tau, .tau, .tau, .emptyErr], ⟨[], .done⟩,
    ScriptsSwap.Run.cons (ScriptsSwap.Step.acquireQ [some "a"])
      (ScriptsSwap.Run.cons (ScriptsSwap.Step.acquireT [some "a"])
        (ScriptsSwap.Run.cons (ScriptsSwap.Step.install [some "a"])
          (ScriptsSwap.Run.cons (ScriptsSwap.Step.releaseT [])
            (ScriptsSwap.Run.cons (ScriptsSwap.Step.releaseQ [])
              (ScriptsSwap.Run.cons (ScriptsSwap.Step.checkEmpty .done rfl)
                (ScriptsSwap.Run.nil ⟨[], .done⟩)))))),
    by decide, by decide⟩⟩

/-- C1 (corrected): in every interleaving of a queue swap installing the
shuffled staging list `s` (a permutation of the staging set `S`) with
concurrent take-next calls, every observation of the queue by a call —
a Corgos `getPhoto` rotation, or a Scripts `getUrl` size check or
`_rotateQueue` rotation, whose two lock sections may be separated by the
swap — is exactly a permutation of the pre-swap contents or exactly a
permutation of `S`, never a mixture; and provided both the pre-swap
queue and the staging set are non-empty, no call raises
`EmptyQueueException` and no Scripts `_rotateQueue` blocks in an empty
`Queue.get`.  With an empty staging set, a call scheduled after the swap
can legitimately find the queue empty. -/
theorem swap_atomicity_amended :
    (∀ (q0 S s : List String) (tr : List SwapMachine.Ev) (c' : SwapMachine.Cfg),
      S.Perm s → SwapMachine.Run s ⟨q0, .idle⟩ tr c' →
      (∀ x obs, SwapMachine.Ev.took x obs ∈ tr → obs.Perm q0 ∨ obs.Perm S) ∧
      (q0 ≠ [] → s ≠ [] → SwapMachine.Ev.emptyErr ∉ tr)) ∧
    (∀ (q0 S s : List (Option String)) (tr : List ScriptsSwap.Ev)
        (c' : ScriptsSwap.Cfg),
      S.Perm s → ScriptsSwap.Run s ⟨q0, .idle⟩ tr c' →
      (∀ obs, ScriptsSwap.Ev.checkedOk obs ∈ tr → obs.Perm q0 ∨ obs.Perm S) ∧
      (∀ x obs, ScriptsSwap.Ev.rotated x obs ∈ tr → obs.Perm q0 ∨ obs.Perm S) ∧
      (q0 ≠ [] → s ≠ [] →
        ScriptsSwap.Ev.emptyErr ∉ tr ∧ ScriptsSwap.Ev.blocked ∉ tr)) := by
  constructor
  · intro q0 S s tr c' hS hrun
    have hinv : SwapMachine.Inv q0 s ⟨q0, SwapMachine.Phase.idle⟩ :=
      List.IsRotated.refl q0
    have h := SwapMachine.run_events hrun hinv
    refine ⟨?_, ?_⟩
    · intro x obs hmem
      rcases h.1 x obs hmem with hr | hr
      · exact Or.inl hr.perm.symm
      · exact Or.inr (hr.perm.symm.trans hS.symm)
    · intro hq0 hs hmem
      rcases h.2 hmem with h' | h'
      · exact hq0 h'
      · exact hs h'
  · intro q0 S s tr c' hS hrun
    have hinv : ScriptsSwap.Inv q0 s ⟨q0, ScriptsSwap.Phase.idle⟩ :=
      List.IsRotated.refl q0
    have h := ScriptsSwap.run_events_scripts hrun hinv
    refine ⟨?_, ?_, ?_⟩
    · intro obs hmem
      rcases (h _ hmem : q0.IsRotated obs ∨ s.IsRotated obs) with hr | hr
      · exact Or.inl hr.perm.symm
      · exact Or.inr (hr.perm.symm.trans hS.symm)
    · intro x obs hmem
      rcases (h _ hmem : q0.IsRotated obs ∨ s.IsRotated obs) with hr | hr
      · exact Or.inl hr.perm.symm
      · exact Or.inr (hr.perm.symm.trans hS.symm)
    · intro hq0 hs
      constructor
      · intro hmem
        rcases (h _ hmem : q0 = [] ∨ s = []) with h' | h'
        · exact hq0 h'
        · exact hs h'
      · intro hmem
        rcases (h _ hmem : q0 = [] ∨ s = []) with h' | h'
        · exact hq0 h'
        · exact hs h'

/-- C1 witness: the theorem at concrete executions in both revisions —
rotating the pre-swap queue, running the whole swap installing a
one-element staging list, and rotating the post-swap queue (for the
Scripts machine, each `getUrl` is its size check followed by its
rotation). -/
theorem swap_atomicity_witness :
    ((∀ x obs, SwapMachine.Ev.took x obs ∈
        ([.took "a" ["a"], .tau, .tau, .tau, .tau, .tau, .took "b" ["b"]] :
          List SwapMachine.Ev) →
      obs.Perm ["a"] ∨ obs.Perm ["b"]) ∧
    (["a"] ≠ ([] : List String) → ["b"] ≠ ([] : List String) →
      SwapMachine.Ev.emptyErr ∉
        ([.took "a" ["a"], .tau, .tau, .tau, .tau, .tau, .took "b" ["b"]] :
          List SwapMachine.Ev))) ∧
    ((∀ obs, ScriptsSwap.Ev.checkedOk obs ∈
        ([.checkedOk [some "a"], .rotated (some "a") [some "a"],
          .tau, .tau, .tau, .tau, .tau,
          .checkedOk [some "b"], .rotated (some "b") [some "b"]] :
          List ScriptsSwap.Ev) →
      obs.Perm [some "a"] ∨ obs.Perm [some "b"]) ∧
    (∀ x obs, ScriptsSwap.Ev.rotated x obs ∈
        ([.checkedOk [some "a"], .rotated (some "a") [some "a"],
          .tau, .tau, .tau, .tau, .tau,
          .checkedOk [some "b"], .rotated (some "b") [some "b"]] :
          List ScriptsSwap.Ev) →
      obs.Perm [some "a"] ∨ obs.Perm [some "b"]) ∧
    ([some "a"] ≠ ([] : List (Option String)) →
      [some "b"] ≠ ([] : List (Option String)) →
      ScriptsSwap.Ev.emptyErr ∉
          ([.checkedOk [some "a"], .rotated (some "a") [some "a"],
            .tau, .tau, .tau, .tau, .tau,
            .checkedOk [some "b"], .rotated (some "b") [some "b"]] :
            List ScriptsSwap.Ev) ∧
        ScriptsSwap.Ev.blocked ∉
          ([.checkedOk [some "a"], .rotated (some "a") [some "a"],
            .tau, .tau, .tau, .tau, .tau,
            .checkedOk [some "b"], .rotated (some "b") [some "b"]] :
            List ScriptsSwap.Ev))) :=
  ⟨swap_atomicity_amended.1 ["a"] ["b"] ["b"]
    [.took "a" ["a"], .tau, .tau, .tau, .tau, .tau, .took "b" ["b"]]
    ⟨["b"], .done⟩ (List.Perm.refl ["b"])
    (SwapMachine.Run.cons (SwapMachine.Step.take "a" [] .idle rfl)
      (SwapMachine.Run.cons (SwapMachine.Step.acquire ["a"])
        (SwapMachine.Run.cons (SwapMachine.Step.drain "a" [])
          (SwapMachine.Run.cons SwapMachine.Step.drained
            (SwapMachine.Run.cons (SwapMachine.Step.put [] "b" [])
              (SwapMachine.Run.cons (SwapMachine.Step.release ["b"])
                (SwapMachine.Run.cons (SwapMachine.Step.take "b" [] .done rfl)
                  (SwapMachine.Run.nil ⟨["b"], .done⟩)))))))),
    swap_atomicity_amended.2 [some "a"] [some "b"] [some "b"]
    [.checkedOk [some "a"], .rotated (some "a") [some "a"],
      .tau, .tau, .tau, .tau, .tau,
      .checkedOk [some "b"], .rotated (some "b") [some "b"]]
    ⟨[some "b"], .done⟩ (List.Perm.refl [some "b"])
    (ScriptsSwap.Run.cons (ScriptsSwap.Step.check (some "a") [] .idle rfl)
      (ScriptsSwap.Run.cons (ScriptsSwap.Step.rotate (some "a") [] .idle rfl)
        (ScriptsSwap.Run.cons (ScriptsSwap.Step.acquireQ [some "a"])
          (ScriptsSwap.Run.cons (ScriptsSwap.Step.acquireT [some "a"])
            (ScriptsSwap.Run.cons (ScriptsSwap.Step.install [some "a"])
              (ScriptsSwap.Run.cons (ScriptsSwap.Step.releaseT [some "b"])
                (ScriptsSwap.Run.cons (ScriptsSwap.Step.releaseQ [some "b"])
                  (ScriptsSwap.Run.cons (ScriptsSwap.Step.check (some "b") [] .done rfl)
                    (ScriptsSwap.Run.cons
                      (ScriptsSwap.Step.rotate (some "b") [] .done rfl)
                      (ScriptsSwap.Run.nil ⟨[some "b"], .done⟩))))))))))⟩
